import Mathlib

/-!
Shallow embedding of the homebridge-atag-one plugin
(src/homebridge_atag_plugin.js) for checking its specification.

The plugin shells out to an external `atag-one.jar` command, extracts a
trailing JSON object from the command output with the regex

  output.match of (\x7b[^\x7b\x7d]*(?:\x7b[^\x7b\x7d]*\x7d[^\x7b\x7d]*)*\x7d)\s*$

(line 267), decodes it, copies present fields into the in-memory snapshot
(lines 276-307), and republishes HomeKit characteristics (lines 318-340).
Numbers are modelled as rationals (the JS values in play are decimal
temperature/pressure readings; no claim depends on binary floating-point
rounding).  The host builtins JSON.parse and child_process.spawn are
modelled as parameters / oracle values (`decode`, `CmdResult`).
-/

namespace Atag

/-- The left-brace character, written via an escape so that brace
characters never appear literally in this file. -/
def lb : Char := '\x7b'

/-- The right-brace character. -/
def rb : Char := '\x7d'

/-- Whitespace test modelling the regex class backslash-s on the ASCII
whitespace characters (space, tab, newline, carriage return, vertical
tab, form feed). -/
def isWS (c : Char) : Bool :=
  c == ' ' || c == '\t' || c == '\n' || c == '\r' || c == '\x0b' || c == '\x0c'

/-- Brace weight of a character: +1 for an opening brace, -1 for a
closing brace, 0 otherwise.  Used to state balancedness. -/
def delta (c : Char) : Int :=
  if c = lb then 1 else if c = rb then -1 else 0

/-- Sum of brace weights of a character list. -/
def sumDelta (cs : List Char) : Int :=
  (cs.map delta).sum

/-- Automaton for the interior of the regex
(\x7b[^\x7b\x7d]*(?:\x7b[^\x7b\x7d]*\x7d[^\x7b\x7d]*)*\x7d) after its
opening brace, at nesting depth `d` (1 = inside the outer object,
2 = inside a nested object).  The regex allows at most one nested level,
so an opening brace at depth 2 rejects.  Accepts exactly when the final
closing brace of the outer object is the last character. -/
def brAux (d : Nat) : List Char → Bool
  | [] => false
  | c :: rest =>
    if c = lb then
      if 2 ≤ d then false else brAux (d + 1) rest
    else if c = rb then
      if d = 1 then rest.isEmpty else brAux (d - 1) rest
    else
      brAux d rest

/-- Whole-string membership in the language of the brace part of the
regex on line 267: an opening brace followed by an interior accepted by
`brAux` at depth 1. -/
def matchesBrace : List Char → Bool
  | [] => false
  | c :: rest => if c = lb then brAux 1 rest else false

/-- At a fixed start position, the regex with its end anchor succeeds
exactly when the remaining text splits into a brace-part match followed
by whitespace only; the split is unique when it exists (proved below),
so trying every split point is faithful to the backtracking engine.
Returns the captured group. -/
def trySplit (s : List Char) : Option (List Char) :=
  (List.range (s.length + 1)).findSome? fun k =>
    if matchesBrace (s.take k) && (s.drop k).all isWS then some (s.take k) else none

/-- The JSON extraction of line 267: JS `match` takes the leftmost start
position at which the pattern (anchored at the end of the input by
backslash-s* $) succeeds.  Scans start positions left to right. -/
def extractJson : List Char → Option (List Char)
  | [] => none
  | c :: rest =>
    match trySplit (c :: rest) with
    | some m => some m
    | none => extractJson rest

/-- A balanced brace group of arbitrary nesting depth: nonempty, starts
with an opening brace, total brace weight zero, and every proper
nonempty prefix has weight at least 1 (so the final brace closes the
first one).  This is the spec-side notion of a balanced-brace JSON
object; the regex language `matchesBrace` is the depth-limited subset. -/
def balGroup (cs : List Char) : Bool :=
  (cs.head? == some lb) && decide (sumDelta cs = 0) &&
    cs.inits.all fun q =>
      decide (q.length = 0) || decide (q.length = cs.length) || decide (1 ≤ sumDelta q)

/-- The HomeKit CurrentHeatingCoolingState values used by the plugin
(hap.Characteristic.CurrentHeatingCoolingState.OFF / HEAT). -/
inductive HCState where
  | off
  | heat
deriving DecidableEq

/-- The HomeKit LeakDetected characteristic values
(hap.Characteristic.LeakDetected). -/
inductive LeakState where
  | leakFound
  | leakAbsent
deriving DecidableEq

/-- The device snapshot: the mutable instance fields of ATAGOneAccessory
written by parseATAGData (lines 47-57 initialise them). -/
structure Snapshot where
  currentTemperature : Rat
  targetTemperature : Rat
  outsideTemperature : Rat
  dhwTemperature : Rat
  waterPressure : Rat
  flameActive : Bool
  currentHeatingCoolingState : HCState
deriving DecidableEq

/-- The decoded trailing JSON object, restricted to the fields the
plugin reads (lines 276-297).  A field is `none` when absent from the
JSON object; numeric fields carry the value parseFloat yields. -/
structure ATAGJson where
  roomTemperature : Option Rat
  targetTemperature : Option Rat
  outsideTemperature : Option Rat
  dhwWaterTemperature : Option Rat
  chWaterPressure : Option Rat
  flameStatus : Option String
deriving DecidableEq

/-- The five conditional numeric-field updates of parseATAGData
(lines 276-294), in source order: each field is overwritten when the
JSON field is present and kept otherwise. -/
def applyNumericFields (data : ATAGJson) (st : Snapshot) : Snapshot :=
  let st1 := match data.roomTemperature with
    | some v => { st with currentTemperature := v }
    | none => st
  let st2 := match data.targetTemperature with
    | some v => { st1 with targetTemperature := v }
    | none => st1
  let st3 := match data.outsideTemperature with
    | some v => { st2 with outsideTemperature := v }
    | none => st2
  let st4 := match data.dhwWaterTemperature with
    | some v => { st3 with dhwTemperature := v }
    | none => st3
  match data.chWaterPressure with
    | some v => { st4 with waterPressure := v }
    | none => st4

/-- The flame-status block of parseATAGData (lines 297-307): runs only
when flameStatus is present; flameActive becomes (flameStatus not equal
to the string Off); the heating state is HEAT when the flame is active,
HEAT when the (already updated) current temperature is more than half a
degree below the (already updated) target, and OFF otherwise. -/
def applyFlame (data : ATAGJson) (st : Snapshot) : Snapshot :=
  match data.flameStatus with
  | none => st
  | some fs =>
    let fl : Bool := fs != "Off"
    let st1 := { st with flameActive := fl }
    if fl then
      { st1 with currentHeatingCoolingState := HCState.heat }
    else if st1.currentTemperature < st1.targetTemperature - (1 / 2 : Rat) then
      { st1 with currentHeatingCoolingState := HCState.heat }
    else
      { st1 with currentHeatingCoolingState := HCState.off }

/-- The state-update part of parseATAGData (lines 276-307): the numeric
field copies followed by the flame block, which reads the updated
temperatures. -/
def applyATAGData (data : ATAGJson) (st : Snapshot) : Snapshot :=
  applyFlame data (applyNumericFields data st)

/-- parseATAGData (lines 264-316): extract the trailing JSON object
with the regex, decode it, and update the snapshot.  `decode` stands
for the host builtin JSON.parse restricted to the fields read;
`none` models the two throws (no JSON found on line 270, JSON.parse
failure on line 273), both of which happen before any field update. -/
def parseATAGData (decode : List Char → Option ATAGJson) (st : Snapshot)
    (output : List Char) : Option Snapshot :=
  match extractJson output with
  | none => none
  | some m =>
    match decode m with
    | none => none
    | some data => some (applyATAGData data st)

/-- The configuration switches that decide which optional services
exist (lines 66-79). -/
structure PluginConfig where
  exposeOutsideTemperature : Bool
  exposeWaterPressure : Bool
  exposeDHWTemperature : Bool
deriving DecidableEq

/-- The characteristic values pushed to the host framework; optional
entries are `none` when the corresponding service is not exposed. -/
structure Published where
  currentTemperature : Rat
  targetTemperature : Rat
  currentHeatingCoolingState : HCState
  outsideTemperature : Option Rat
  leakFlag : Option LeakState
  dhwTemperature : Option Rat
deriving DecidableEq

/-- The LeakDetected onGet handler of createWaterPressureService
(lines 177-183): low pressure (below 1.0 bar) reports a leak. -/
def leakDetectedOnGet (st : Snapshot) : LeakState :=
  if st.waterPressure < 1 then LeakState.leakFound else LeakState.leakAbsent

/-- updateHomeKitCharacteristics (lines 318-340): republishes the
thermostat characteristics and, for each exposed optional service, its
characteristic; the leak flag repeats the below-1.0-bar test of
lines 330-333. -/
def updateHomeKitCharacteristics (cfg : PluginConfig) (st : Snapshot) : Published :=
  { currentTemperature := st.currentTemperature
    targetTemperature := st.targetTemperature
    currentHeatingCoolingState := st.currentHeatingCoolingState
    outsideTemperature :=
      if cfg.exposeOutsideTemperature then some st.outsideTemperature else none
    leakFlag :=
      if cfg.exposeWaterPressure then
        some (if st.waterPressure < 1 then LeakState.leakFound else LeakState.leakAbsent)
      else none
    dhwTemperature :=
      if cfg.exposeDHWTemperature then some st.dhwTemperature else none }

/-- Outcome of one executeATAGCommand invocation (lines 219-262):
`ok` carries the collected stdout on a zero exit; `err` covers both a
non-zero exit (line 254) and a spawn error (line 259), each of which
rejects the promise with a message. -/
inductive CmdResult where
  | ok (output : List Char)
  | err (msg : String)
deriving DecidableEq

/-- The accessory state visible to the poll cycle: the snapshot, the
re-entrancy guard `isUpdating`, the last published characteristics, an
error log (most recent first), and a count of executeATAGCommand
invocations. -/
structure UState where
  snap : Snapshot
  isUpdating : Bool
  published : Published
  log : List String
  execCount : Nat
deriving DecidableEq

/-- Whether a given poll attempt fails: the command errors, or its
output yields no parsable trailing JSON object. -/
def pollFailed (decode : List Char → Option ATAGJson) (st : UState) :
    CmdResult → Bool
  | CmdResult.err _ => true
  | CmdResult.ok output => (parseATAGData decode st.snap output).isNone

/-- updateATAGData (lines 200-217): skip when a poll is in flight;
otherwise set the guard, run the command (outcome given by the `exec`
oracle), parse, republish; any failure is caught and logged (line 213),
and the finally block clears the guard (line 215). -/
def updateATAGData (cfg : PluginConfig) (decode : List Char → Option ATAGJson)
    (st : UState) (exec : CmdResult) : UState :=
  if st.isUpdating then
    st
  else
    match exec with
    | CmdResult.err _ =>
      { st with
        execCount := st.execCount + 1
        log := "Failed to update ATAG data" :: st.log
        isUpdating := false }
    | CmdResult.ok output =>
      match parseATAGData decode st.snap output with
      | none =>
        { st with
          execCount := st.execCount + 1
          log := "Failed to update ATAG data" :: st.log
          isUpdating := false }
      | some snap1 =>
        { st with
          execCount := st.execCount + 1
          snap := snap1
          published := updateHomeKitCharacteristics cfg snap1
          isUpdating := false }

/-- The fault raised to the host framework on a failed temperature set
(line 355): hap.HAPStatus.SERVICE_COMMUNICATION_FAILURE wrapped in a
HapStatusError. -/
inductive HapError where
  | serviceCommunicationFailure
deriving DecidableEq

/-- setTargetTemperature (lines 342-357): runs the external command
with the temperature argument, with no isUpdating check; on success the
stored target and its characteristic take the new value (the 2-second
delayed follow-up poll is outside this call); on failure the error is
logged and a communication-failure fault is raised, leaving the state
otherwise untouched. -/
def setTargetTemperature (st : UState) (temperature : Rat) (exec : CmdResult) :
    UState × Option HapError :=
  match exec with
  | CmdResult.ok _ =>
    ({ st with
        execCount := st.execCount + 1
        snap := { st.snap with targetTemperature := temperature }
        published := { st.published with targetTemperature := temperature } },
      none)
  | CmdResult.err _ =>
    ({ st with
        execCount := st.execCount + 1
        log := "Failed to set target temperature" :: st.log },
      some HapError.serviceCommunicationFailure)

/-- The raw configuration fields read during validation (lines 19-38);
`none` models an absent key. -/
structure RawConfig where
  mode : Option String
  host : Option String
  email : Option String
  password : Option String
deriving DecidableEq

/-- JS truthiness for an optional string value: absent and the empty
string are falsy. -/
def truthy : Option String → Bool
  | none => false
  | some s => !s.isEmpty

/-- The mode after the default on line 20: config.mode falls back to
the string local when falsy. -/
def effectiveMode (c : RawConfig) : String :=
  match c.mode with
  | some s => if s.isEmpty then "local" else s
  | none => "local"

/-- The constructor validation (lines 33-38): returns the thrown error
message, or `none` when construction passes field validation. -/
def validateConfig (c : RawConfig) : Option String :=
  if effectiveMode c = "local" ∧ truthy c.host = false then
    some "Host is required for local mode"
  else if effectiveMode c = "remote" ∧ (truthy c.email = false ∨ truthy c.password = false) then
    some "Email and password are required for remote mode"
  else
    none

/-- Abstract concurrency state for the event-driven execution: the
re-entrancy flag and the number of external processes currently in
flight that were spawned by the poll path and by the set-temperature
path respectively.  Counters allow expressing that two processes run
at once. -/
structure Sys where
  isUpdating : Bool
  pollInFlight : Nat
  setInFlight : Nat
deriving DecidableEq

/-- The accessory starts with isUpdating false (line 51) and no process
running. -/
def initSys : Sys :=
  { isUpdating := false, pollInFlight := 0, setInFlight := 0 }

/-- Total number of spawned external processes currently in flight. -/
def inFlight (s : Sys) : Nat :=
  s.pollInFlight + s.setInFlight

/-- Event-loop transitions of the plugin, one per await point:
a poll trigger either passes the guard (lines 201-209: sets isUpdating
and spawns) or is skipped (lines 201-204); a running poll finishes
(parse/publish and the finally block of line 215, clearing the guard);
setTargetTemperature spawns with no guard check (line 344); a
set-temperature process finishes. -/
inductive SysStep : Sys → Sys → Prop where
  | pollStart (s : Sys) (h : s.isUpdating = false) :
      SysStep s { isUpdating := true, pollInFlight := s.pollInFlight + 1,
                  setInFlight := s.setInFlight }
  | pollSkip (s : Sys) (h : s.isUpdating = true) : SysStep s s
  | pollFinish (s : Sys) (h : 1 ≤ s.pollInFlight) :
      SysStep s { isUpdating := false, pollInFlight := s.pollInFlight - 1,
                  setInFlight := s.setInFlight }
  | setStart (s : Sys) :
      SysStep s { s with setInFlight := s.setInFlight + 1 }
  | setFinish (s : Sys) (h : 1 ≤ s.setInFlight) :
      SysStep s { s with setInFlight := s.setInFlight - 1 }

/-- States reachable from the initial state by plugin transitions. -/
inductive SysReachable : Sys → Prop where
  | init : SysReachable initSys
  | step {s s1 : Sys} : SysReachable s → SysStep s s1 → SysReachable s1

/-- The transitions of the poll path alone (updateATAGData and its
guard), without the unguarded set-temperature path. -/
inductive PollStep : Sys → Sys → Prop where
  | pollStart (s : Sys) (h : s.isUpdating = false) :
      PollStep s { isUpdating := true, pollInFlight := s.pollInFlight + 1,
                   setInFlight := s.setInFlight }
  | pollSkip (s : Sys) (h : s.isUpdating = true) : PollStep s s
  | pollFinish (s : Sys) (h : 1 ≤ s.pollInFlight) :
      PollStep s { isUpdating := false, pollInFlight := s.pollInFlight - 1,
                   setInFlight := s.setInFlight }

/-- States reachable using the poll path alone. -/
inductive PollReachable : Sys → Prop where
  | init : PollReachable initSys
  | step {s s1 : Sys} : PollReachable s → PollStep s s1 → PollReachable s1

/-- Sample decoded JSON object with every field present, for concrete
witnesses. -/
def jsonSample : ATAGJson :=
  { roomTemperature := some (43 / 2), targetTemperature := some 21,
    outsideTemperature := some 5, dhwWaterTemperature := some 55,
    chWaterPressure := some (3 / 2), flameStatus := some "On" }

/-- The empty decoded JSON object (every field absent). -/
def jsonEmpty : ATAGJson :=
  { roomTemperature := none, targetTemperature := none,
    outsideTemperature := none, dhwWaterTemperature := none,
    chWaterPressure := none, flameStatus := none }

/-- Sample decode function for concrete witnesses: decodes the
two-character object consisting of an opening and a closing brace to a
JSON object with every field present. -/
def decSample : List Char → Option ATAGJson :=
  fun m => if m = [lb, rb] then some jsonSample else none

/-- Sample decode function that decodes the two-character brace object
to the empty JSON object (every field absent). -/
def decEmpty : List Char → Option ATAGJson :=
  fun m => if m = [lb, rb] then some jsonEmpty else none

/-- Sample snapshot with recognisable values, for concrete witnesses. -/
def snapSample : Snapshot :=
  { currentTemperature := 42, targetTemperature := 19,
    outsideTemperature := 7, dhwTemperature := 48, waterPressure := 2,
    flameActive := false, currentHeatingCoolingState := HCState.off }

/-- Sample configuration exposing every optional service. -/
def cfgSample : PluginConfig :=
  { exposeOutsideTemperature := true, exposeWaterPressure := true,
    exposeDHWTemperature := true }

/-- Sample idle accessory state, for concrete witnesses. -/
def stSample : UState :=
  { snap := snapSample, isUpdating := false,
    published := updateHomeKitCharacteristics cfgSample snapSample,
    log := [], execCount := 0 }

/-- Sample accessory state with a poll in flight. -/
def stBusy : UState :=
  { snap := snapSample, isUpdating := true,
    published := updateHomeKitCharacteristics cfgSample snapSample,
    log := [], execCount := 1 }

/-! ## Facts about the brace-matching regex language -/

theorem sumDelta_nil : sumDelta [] = 0 := rfl

theorem sumDelta_cons (c : Char) (l : List Char) :
    sumDelta (c :: l) = delta c + sumDelta l := by
  simp [sumDelta]

theorem sumDelta_append (a b : List Char) :
    sumDelta (a ++ b) = sumDelta a + sumDelta b := by
  simp [sumDelta]

theorem delta_lb : delta lb = 1 := by decide

theorem delta_rb : delta rb = -1 := by decide

theorem delta_other (c : Char) (h1 : ¬ c = lb) (h2 : ¬ c = rb) : delta c = 0 := by
  simp [delta, h1, h2]

/-- A string accepted by the interior automaton at depth `d` has total
brace weight `-d` (the remaining closers), and every proper prefix has
weight strictly greater than `-d` (an accepted interior never closes
the outer object early). -/
theorem brAux_facts (cs : List Char) : ∀ d : Nat, 1 ≤ d → brAux d cs = true →
    sumDelta cs = -(d : Int) ∧
    ∀ q t : List Char, cs = q ++ t → t ≠ [] → -(d : Int) < sumDelta q := by
  induction cs with
  | nil => intro d _ hb; simp [brAux] at hb
  | cons c rest ih =>
    intro d hd hb
    rw [brAux] at hb
    by_cases hc : c = lb
    · rw [if_pos hc] at hb
      by_cases h2 : 2 ≤ d
      · rw [if_pos h2] at hb; exact absurd hb (by simp)
      · rw [if_neg h2] at hb
        obtain ⟨ihs, ihp⟩ := ih (d + 1) (by omega) hb
        constructor
        · rw [sumDelta_cons, hc, delta_lb, ihs]; push_cast; ring
        · intro q t hqt ht
          cases q with
          | nil => rw [sumDelta_nil]; omega
          | cons q0 q1 =>
            rw [List.cons_append] at hqt
            injection hqt with hq0 hrest
            have := ihp q1 t hrest ht
            rw [sumDelta_cons, ← hq0, hc, delta_lb]
            push_cast at this ⊢
            omega
    · rw [if_neg hc] at hb
      by_cases hcr : c = rb
      · rw [if_pos hcr] at hb
        by_cases hd1 : d = 1
        · rw [if_pos hd1] at hb
          have hrest : rest = [] := by simpa using hb
          subst hrest
          subst hd1
          constructor
          · rw [sumDelta_cons, hcr, delta_rb, sumDelta_nil]; ring
          · intro q t hqt ht
            cases q with
            | nil => rw [sumDelta_nil]; omega
            | cons q0 q1 =>
              rw [List.cons_append] at hqt
              injection hqt with hq0 hrest
              have := (List.append_eq_nil).mp hrest.symm
              exact absurd this.2 ht
        · rw [if_neg hd1] at hb
          obtain ⟨ihs, ihp⟩ := ih (d - 1) (by omega) hb
          have hcast : ((d - 1 : Nat) : Int) = (d : Int) - 1 := by omega
          constructor
          · rw [sumDelta_cons, hcr, delta_rb, ihs, hcast]; ring
          · intro q t hqt ht
            cases q with
            | nil => rw [sumDelta_nil]; omega
            | cons q0 q1 =>
              rw [List.cons_append] at hqt
              injection hqt with hq0 hrest
              have := ihp q1 t hrest ht
              rw [sumDelta_cons, ← hq0, hcr, delta_rb]
              rw [hcast] at this
              omega
      · rw [if_neg hcr] at hb
        obtain ⟨ihs, ihp⟩ := ih d hd hb
        constructor
        · rw [sumDelta_cons, delta_other c hc hcr, ihs]; ring
        · intro q t hqt ht
          cases q with
          | nil => rw [sumDelta_nil]; omega
          | cons q0 q1 =>
            rw [List.cons_append] at hqt
            injection hqt with hq0 hrest
            have := ihp q1 t hrest ht
            rw [sumDelta_cons, ← hq0, delta_other c hc hcr]
            omega

/-- A string accepted by the interior automaton ends with the closing
brace of the outer object. -/
theorem brAux_ends (cs : List Char) : ∀ d : Nat, brAux d cs = true →
    ∃ q, cs = q ++ [rb] := by
  induction cs with
  | nil => intro d hb; simp [brAux] at hb
  | cons c rest ih =>
    intro d hb
    rw [brAux] at hb
    by_cases hc : c = lb
    · rw [if_pos hc] at hb
      by_cases h2 : 2 ≤ d
      · rw [if_pos h2] at hb; exact absurd hb (by simp)
      · rw [if_neg h2] at hb
        obtain ⟨q, hq⟩ := ih (d + 1) hb
        exact ⟨c :: q, by rw [hq, List.cons_append]⟩
    · rw [if_neg hc] at hb
      by_cases hcr : c = rb
      · rw [if_pos hcr] at hb
        by_cases hd1 : d = 1
        · rw [if_pos hd1] at hb
          have hrest : rest = [] := by simpa using hb
          exact ⟨[], by rw [hrest, hcr]; rfl⟩
        · rw [if_neg hd1] at hb
          obtain ⟨q, hq⟩ := ih (d - 1) hb
          exact ⟨c :: q, by rw [hq, List.cons_append]⟩
      · rw [if_neg hcr] at hb
        obtain ⟨q, hq⟩ := ih d hb
        exact ⟨c :: q, by rw [hq, List.cons_append]⟩

/-- A regex match starts with the opening brace and its interior is
accepted at depth 1. -/
theorem matchesBrace_shape (m : List Char) (h : matchesBrace m = true) :
    ∃ t, m = lb :: t ∧ brAux 1 t = true := by
  cases m with
  | nil => simp [matchesBrace] at h
  | cons c rest =>
    rw [matchesBrace] at h
    by_cases hc : c = lb
    · exact ⟨rest, by rw [hc], by rwa [if_pos hc] at h⟩
    · rw [if_neg hc] at h; exact absurd h (by simp)

theorem matchesBrace_ne_nil (m : List Char) (h : matchesBrace m = true) :
    m ≠ [] := by
  obtain ⟨t, rfl, _⟩ := matchesBrace_shape m h
  simp

/-- A regex match is brace balanced. -/
theorem matchesBrace_sum (m : List Char) (h : matchesBrace m = true) :
    sumDelta m = 0 := by
  obtain ⟨t, rfl, hb⟩ := matchesBrace_shape m h
  have hs := (brAux_facts t 1 le_rfl hb).1
  rw [sumDelta_cons, delta_lb, hs]
  ring

/-- Every proper nonempty prefix of a regex match has positive brace
weight: the final brace of the match closes its first one. -/
theorem matchesBrace_proper (m : List Char) (h : matchesBrace m = true) :
    ∀ q u : List Char, m = q ++ u → q ≠ [] → u ≠ [] → 1 ≤ sumDelta q := by
  obtain ⟨t, rfl, hb⟩ := matchesBrace_shape m h
  intro q u hqu hq hu
  cases q with
  | nil => exact absurd rfl hq
  | cons q0 q1 =>
    rw [List.cons_append] at hqu
    injection hqu with h1 h2
    have := (brAux_facts t 1 le_rfl hb).2 q1 u h2 hu
    rw [sumDelta_cons, ← h1, delta_lb]
    omega

/-- A regex match ends with a closing brace. -/
theorem matchesBrace_ends (m : List Char) (h : matchesBrace m = true) :
    ∃ q, m = q ++ [rb] := by
  obtain ⟨t, rfl, hb⟩ := matchesBrace_shape m h
  obtain ⟨q, hq⟩ := brAux_ends t 1 hb
  exact ⟨lb :: q, by rw [hq, List.cons_append]⟩

/-- Lists ending in a single element determine that element. -/
theorem concat_last_eq (a b : List Char) (x y : Char)
    (h : a ++ [x] = b ++ [y]) : x = y := by
  have h1 := congrArg List.reverse h
  simp at h1
  exact h1.1

/-- A whitespace-only list contains no closing brace. -/
theorem rb_not_ws (t : List Char) (h : t.all isWS = true) : rb ∉ t := by
  intro hmem
  have := List.all_eq_true.mp h rb hmem
  exact absurd this (by decide)

/-- Rigidity of match-plus-whitespace decompositions: if a string both
equals a regex match followed by whitespace and equals any prefix, a
regex-matchable object and trailing whitespace, then the match is the
prefix plus the object.  The two trailing-whitespace regions must end
at the same place because matches end in a closing brace, which is not
whitespace. -/
theorem match_decomp_unique (m w p obj ws : List Char)
    (hm : matchesBrace m = true) (hobj : matchesBrace obj = true)
    (hw : w.all isWS = true) (hws : ws.all isWS = true)
    (heq : m ++ w = (p ++ obj) ++ ws) : m = p ++ obj := by
  rcases List.append_eq_append_iff.mp heq with ⟨t, h1, h2⟩ | ⟨t, h1, h2⟩
  · -- p ++ obj = m ++ t, w = t ++ ws
    by_cases ht : t = []
    · rw [ht, List.append_nil] at h1; exact h1.symm
    · exfalso
      have htw : t.all isWS = true := by
        rw [h2, List.all_append, Bool.and_eq_true] at hw
        exact hw.1
      obtain ⟨qo, hqo⟩ := matchesBrace_ends obj hobj
      have hlast : (p ++ qo) ++ [rb] = (m ++ t.dropLast) ++ [t.getLast ht] := by
        rw [List.append_assoc, ← hqo, h1, List.append_assoc,
          List.dropLast_append_getLast ht]
      have hrb : rb = t.getLast ht := concat_last_eq _ _ _ _ hlast
      have : rb ∈ t := hrb ▸ List.getLast_mem ht
      exact rb_not_ws t htw this
  · -- m = (p ++ obj) ++ t, ws = t ++ w
    by_cases ht : t = []
    · rw [ht, List.append_nil] at h1; exact h1
    · exfalso
      have htw : t.all isWS = true := by
        rw [h2, List.all_append, Bool.and_eq_true] at hws
        exact hws.1
      obtain ⟨qm, hqm⟩ := matchesBrace_ends m hm
      have hlast : qm ++ [rb] = ((p ++ obj) ++ t.dropLast) ++ [t.getLast ht] := by
        rw [← hqm, h1, List.append_assoc ((p ++ obj)) _ _,
          List.dropLast_append_getLast ht]
      have hrb : rb = t.getLast ht := concat_last_eq _ _ _ _ hlast
      have : rb ∈ t := hrb ▸ List.getLast_mem ht
      exact rb_not_ws t htw this

/-! ## findSome? helpers -/

theorem findSomeEqNoneOfForall {α β : Type} (f : α → Option β) :
    ∀ l : List α, (∀ a ∈ l, f a = none) → l.findSome? f = none := by
  intro l
  induction l with
  | nil => intro _; rfl
  | cons a l ih =>
    intro h
    rw [List.findSome?]
    rw [h a (by simp)]
    exact ih fun x hx => h x (by simp [hx])

theorem forallOfFindSomeEqNone {α β : Type} (f : α → Option β) :
    ∀ l : List α, l.findSome? f = none → ∀ a ∈ l, f a = none := by
  intro l
  induction l with
  | nil => intro _ a ha; simp at ha
  | cons a l ih =>
    intro h b hb
    rw [List.findSome?] at h
    cases hfa : f a with
    | some v => rw [hfa] at h; simp at h
    | none =>
      rw [hfa] at h
      rcases List.mem_cons.mp hb with rfl | hbl
      · exact hfa
      · exact ih h b hbl

theorem existsOfFindSomeEqSome {α β : Type} (f : α → Option β) :
    ∀ (l : List α) (b : β), l.findSome? f = some b → ∃ a ∈ l, f a = some b := by
  intro l
  induction l with
  | nil => intro b h; simp [List.findSome?] at h
  | cons a l ih =>
    intro b h
    rw [List.findSome?] at h
    cases hfa : f a with
    | some v =>
      rw [hfa] at h
      simp at h
      exact ⟨a, by simp, by rw [hfa, h]⟩
    | none =>
      rw [hfa] at h
      obtain ⟨x, hx, hfx⟩ := ih b h
      exact ⟨x, by simp [hx], hfx⟩

/-! ## Behaviour of the anchored search -/

/-- A successful anchored attempt at a fixed start position yields a
regex match followed by whitespace. -/
theorem trySplit_eq_some (s m : List Char) (h : trySplit s = some m) :
    matchesBrace m = true ∧ ∃ w, s = m ++ w ∧ w.all isWS = true := by
  obtain ⟨k, _, hfk⟩ := existsOfFindSomeEqSome _ _ _ h
  by_cases hcond : (matchesBrace (s.take k) && (s.drop k).all isWS) = true
  · rw [if_pos hcond] at hfk
    rw [Bool.and_eq_true] at hcond
    have hm : m = s.take k := by injection hfk with h1; exact h1.symm
    subst hm
    exact ⟨hcond.1, s.drop k, (List.take_append_drop k s).symm, hcond.2⟩
  · rw [if_neg hcond] at hfk
    exact absurd hfk (by simp)

/-- At the start of a trailing object the anchored attempt succeeds and
captures exactly the object. -/
theorem trySplit_pos (obj ws : List Char) (hobj : matchesBrace obj = true)
    (hws : ws.all isWS = true) : trySplit (obj ++ ws) = some obj := by
  cases h : trySplit (obj ++ ws) with
  | none =>
    exfalso
    have hall := forallOfFindSomeEqNone _ _ h
    have hk : obj.length ∈ List.range ((obj ++ ws).length + 1) := by
      rw [List.mem_range, List.length_append]
      omega
    have hfk := hall obj.length hk
    rw [List.take_left, List.drop_left, hobj, hws] at hfk
    simp at hfk
  | some m =>
    obtain ⟨hm, w, hsplit, hw⟩ := trySplit_eq_some _ _ h
    have hmeq : m = [] ++ obj :=
      match_decomp_unique m w [] obj ws hm hobj hw hws
        (by rw [← hsplit, List.nil_append])
    rw [hmeq, List.nil_append]

/-- Before the start of the trailing object every anchored attempt
fails: a match there would have to extend exactly to the end of the
object, making the object a proper suffix of a balanced group, which
contradicts positivity of proper-prefix weights. -/
theorem trySplit_none (p obj ws : List Char) (hp : p ≠ [])
    (hobj : matchesBrace obj = true) (hws : ws.all isWS = true) :
    trySplit ((p ++ obj) ++ ws) = none := by
  apply findSomeEqNoneOfForall
  intro k _
  by_cases hcond :
      (matchesBrace (((p ++ obj) ++ ws).take k) && (((p ++ obj) ++ ws).drop k).all isWS) = true
  · exfalso
    rw [Bool.and_eq_true] at hcond
    obtain ⟨hm, hw⟩ := hcond
    have hsk := List.take_append_drop k ((p ++ obj) ++ ws)
    have hmeq := match_decomp_unique _ _ p obj ws hm hobj hw hws hsk
    have hsum := matchesBrace_sum _ hm
    rw [hmeq, sumDelta_append] at hsum
    have hobj0 := matchesBrace_sum obj hobj
    have hp1 : 1 ≤ sumDelta p :=
      matchesBrace_proper _ hm p obj hmeq hp (matchesBrace_ne_nil obj hobj)
    omega
  · rw [if_neg hcond]

/-- C3 (amended): for every output that ends in a balanced-brace object
within the nesting depth the regex supports (at most one nested level,
the language of `matchesBrace`), possibly followed by whitespace, the
extraction matches exactly that trailing object, whatever precedes
it. -/
theorem C3_trailing_object_extracted (p obj ws : List Char)
    (hobj : matchesBrace obj = true) (hws : ws.all isWS = true) :
    extractJson (p ++ (obj ++ ws)) = some obj := by
  induction p with
  | nil =>
    rw [List.nil_append]
    obtain ⟨t, ht, _⟩ := matchesBrace_shape obj hobj
    have hcons : obj ++ ws = lb :: (t ++ ws) := by rw [ht, List.cons_append]
    rw [hcons, extractJson, ← hcons, trySplit_pos obj ws hobj hws]
  | cons c p1 ih =>
    have hcons : (c :: p1) ++ (obj ++ ws) = c :: (p1 ++ (obj ++ ws)) := by
      rw [List.cons_append]
    have hassoc : c :: (p1 ++ (obj ++ ws)) = ((c :: p1) ++ obj) ++ ws := by
      rw [List.append_assoc, List.cons_append]
    have hn : trySplit (c :: (p1 ++ (obj ++ ws))) = none := by
      rw [hassoc]
      exact trySplit_none (c :: p1) obj ws (by simp) hobj hws
    rw [hcons, extractJson, hn]
    exact ih

/-- C3 counterexample: the three-deep balanced object consisting of
three opening and three closing braces is a balanced-brace object that
the whole output ends with, yet the extraction finds nothing, because
the regex on line 267 supports only one level of nesting. -/
theorem C3_deep_nesting_no_match :
    balGroup [lb, lb, lb, rb, rb, rb] = true ∧
    extractJson [lb, lb, lb, rb, rb, rb] = none := by
  exact ⟨by decide, by decide⟩

/-- C3 witness: a concrete output with a one-character prefix, a
trailing two-character object and trailing whitespace is matched
exactly at the object. -/
theorem C3_trailing_object_extracted_witness :
    matchesBrace [lb, rb] = true ∧ [' '].all isWS = true ∧
    extractJson (['x'] ++ ([lb, rb] ++ [' '])) = some [lb, rb] :=
  ⟨by decide, by decide,
    C3_trailing_object_extracted ['x'] [lb, rb] [' '] (by decide) (by decide)⟩

/-! ## Facts about the snapshot update -/

/-- The numeric block of parseATAGData overwrites exactly the fields
present in the JSON and keeps the others, leaving the flame flag and
heating state untouched. -/
theorem applyNumericFields_spec (data : ATAGJson) (st : Snapshot) :
    applyNumericFields data st =
      { st with
        currentTemperature := data.roomTemperature.getD st.currentTemperature
        targetTemperature := data.targetTemperature.getD st.targetTemperature
        outsideTemperature := data.outsideTemperature.getD st.outsideTemperature
        dhwTemperature := data.dhwWaterTemperature.getD st.dhwTemperature
        waterPressure := data.chWaterPressure.getD st.waterPressure } := by
  rcases data with ⟨rt, tt, ot, dt, wp, fs⟩
  cases rt <;> cases tt <;> cases ot <;> cases dt <;> cases wp <;> rfl

/-- The flame block leaves every numeric field unchanged. -/
theorem applyFlame_keepsNumeric (data : ATAGJson) (st : Snapshot) :
    (applyFlame data st).currentTemperature = st.currentTemperature ∧
    (applyFlame data st).targetTemperature = st.targetTemperature ∧
    (applyFlame data st).outsideTemperature = st.outsideTemperature ∧
    (applyFlame data st).dhwTemperature = st.dhwTemperature ∧
    (applyFlame data st).waterPressure = st.waterPressure := by
  cases h : data.flameStatus with
  | none => simp [applyFlame, h]
  | some fs =>
    simp only [applyFlame, h]
    split_ifs <;> simp

/-- The flame flag after the flame block. -/
theorem applyFlame_flameActive (data : ATAGJson) (st : Snapshot) :
    (applyFlame data st).flameActive =
      (match data.flameStatus with
        | none => st.flameActive
        | some fs => fs != "Off") := by
  cases h : data.flameStatus with
  | none => simp [applyFlame, h]
  | some fs =>
    simp only [applyFlame, h]
    split_ifs <;> simp

/-- The heating state after the flame block: HEAT when the flame is
active or the current temperature is more than half a degree below the
target, OFF otherwise; untouched when flameStatus is absent. -/
theorem applyFlame_hc (data : ATAGJson) (st : Snapshot) :
    (applyFlame data st).currentHeatingCoolingState =
      (match data.flameStatus with
        | none => st.currentHeatingCoolingState
        | some fs =>
          if (fs != "Off") = true ∨
              st.currentTemperature < st.targetTemperature - (1 / 2 : Rat) then
            HCState.heat
          else HCState.off) := by
  cases h : data.flameStatus with
  | none => simp [applyFlame, h]
  | some fs =>
    simp only [applyFlame, h]
    by_cases hf : (fs != "Off") = true
    · simp [hf]
    · simp [hf]
      split_ifs <;> rfl

/-- Field projections of the full snapshot update: each numeric field
takes the JSON value when present and the prior value when absent. -/
theorem applyATAGData_numeric (data : ATAGJson) (st : Snapshot) :
    (applyATAGData data st).currentTemperature =
      data.roomTemperature.getD st.currentTemperature ∧
    (applyATAGData data st).targetTemperature =
      data.targetTemperature.getD st.targetTemperature ∧
    (applyATAGData data st).outsideTemperature =
      data.outsideTemperature.getD st.outsideTemperature ∧
    (applyATAGData data st).dhwTemperature =
      data.dhwWaterTemperature.getD st.dhwTemperature ∧
    (applyATAGData data st).waterPressure =
      data.chWaterPressure.getD st.waterPressure := by
  rw [applyATAGData]
  obtain ⟨h1, h2, h3, h4, h5⟩ := applyFlame_keepsNumeric data (applyNumericFields data st)
  rw [h1, h2, h3, h4, h5, applyNumericFields_spec]
  exact ⟨rfl, rfl, rfl, rfl, rfl⟩

/-- Flame projections of the full snapshot update, with the comparison
taken on the already updated temperatures as on lines 300-306. -/
theorem applyATAGData_flame (data : ATAGJson) (st : Snapshot) :
    (applyATAGData data st).flameActive =
      (match data.flameStatus with
        | none => st.flameActive
        | some fs => fs != "Off") ∧
    (applyATAGData data st).currentHeatingCoolingState =
      (match data.flameStatus with
        | none => st.currentHeatingCoolingState
        | some fs =>
          if (fs != "Off") = true ∨
              data.roomTemperature.getD st.currentTemperature <
                data.targetTemperature.getD st.targetTemperature - (1 / 2 : Rat) then
            HCState.heat
          else HCState.off) := by
  rw [applyATAGData]
  constructor
  · rw [applyFlame_flameActive, applyNumericFields_spec]
  · rw [applyFlame_hc, applyNumericFields_spec]

/-! ## Claim theorems for the poll cycle and services -/

/-- C1: for every command output whose trailing JSON object decodes
successfully, parseATAGData succeeds, and each of the five numeric
snapshot fields becomes the value of the correspondingly named JSON
field when that field is present and keeps its prior value when it is
absent. -/
theorem C1_parse_field_mapping (decode : List Char → Option ATAGJson)
    (st : Snapshot) (out m : List Char) (data : ATAGJson)
    (h1 : extractJson out = some m) (h2 : decode m = some data) :
    parseATAGData decode st out = some (applyATAGData data st) ∧
    (applyATAGData data st).currentTemperature =
      data.roomTemperature.getD st.currentTemperature ∧
    (applyATAGData data st).targetTemperature =
      data.targetTemperature.getD st.targetTemperature ∧
    (applyATAGData data st).outsideTemperature =
      data.outsideTemperature.getD st.outsideTemperature ∧
    (applyATAGData data st).dhwTemperature =
      data.dhwWaterTemperature.getD st.dhwTemperature ∧
    (applyATAGData data st).waterPressure =
      data.chWaterPressure.getD st.waterPressure := by
  refine ⟨?_, applyATAGData_numeric data st⟩
  simp [parseATAGData, h1, h2]

/-- C1 witness at a concrete output, decode function and snapshot. -/
theorem C1_parse_field_mapping_witness :
    extractJson [lb, rb] = some [lb, rb] ∧
    decSample [lb, rb] = some jsonSample ∧
    parseATAGData decSample snapSample [lb, rb] =
      some (applyATAGData jsonSample snapSample) ∧
    (applyATAGData jsonSample snapSample).currentTemperature =
      jsonSample.roomTemperature.getD snapSample.currentTemperature := by
  have h := C1_parse_field_mapping decSample snapSample [lb, rb] [lb, rb]
    jsonSample (by decide) rfl
  exact ⟨by decide, rfl, h.1, h.2.1⟩

/-- C2: a poll entered while idle always ends with the guard cleared;
when the poll fails (command error, or no parsable trailing JSON) the
error is logged and the snapshot and the published characteristics keep
their prior values. -/
theorem C2_poll_failure_leaves_state (cfg : PluginConfig)
    (decode : List Char → Option ATAGJson) (st : UState) (exec : CmdResult)
    (h : st.isUpdating = false) :
    (updateATAGData cfg decode st exec).isUpdating = false ∧
    (pollFailed decode st exec = true →
      (updateATAGData cfg decode st exec).snap = st.snap ∧
      (updateATAGData cfg decode st exec).published = st.published ∧
      (updateATAGData cfg decode st exec).log =
        "Failed to update ATAG data" :: st.log) := by
  cases exec with
  | err msg => simp [updateATAGData, h, pollFailed]
  | ok output =>
    cases hp : parseATAGData decode st.snap output with
    | none => simp [updateATAGData, h, pollFailed, hp]
    | some s1 => simp [updateATAGData, h, pollFailed, hp]

/-- C2 witness: a concrete failing poll (command error) on a concrete
idle state. -/
theorem C2_poll_failure_leaves_state_witness :
    stSample.isUpdating = false ∧
    pollFailed decSample stSample (CmdResult.err "exit 1") = true ∧
    (updateATAGData cfgSample decSample stSample (CmdResult.err "exit 1")).isUpdating = false ∧
    (updateATAGData cfgSample decSample stSample (CmdResult.err "exit 1")).snap = stSample.snap ∧
    (updateATAGData cfgSample decSample stSample (CmdResult.err "exit 1")).published = stSample.published := by
  have h := C2_poll_failure_leaves_state cfgSample decSample stSample
    (CmdResult.err "exit 1") rfl
  have h2 := h.2 rfl
  exact ⟨rfl, rfl, h.1, h2.1, h2.2.1⟩

/-- C4: a poll triggered while one is in flight is a complete no-op:
the state, including the snapshot, the published characteristics and
the count of spawned commands, is returned unchanged. -/
theorem C4_overlapping_poll_noop (cfg : PluginConfig)
    (decode : List Char → Option ATAGJson) (st : UState) (exec : CmdResult)
    (h : st.isUpdating = true) :
    updateATAGData cfg decode st exec = st := by
  simp [updateATAGData, h]

/-- C4 witness on a concrete busy state. -/
theorem C4_overlapping_poll_noop_witness :
    stBusy.isUpdating = true ∧
    updateATAGData cfgSample decSample stBusy (CmdResult.err "x") = stBusy :=
  ⟨rfl, C4_overlapping_poll_noop cfgSample decSample stBusy (CmdResult.err "x") rfl⟩

/-- C5 counterexample: a state with a poll-spawned process and a
set-temperature-spawned process simultaneously in flight is reachable,
because setTargetTemperature does not consult the isUpdating flag; so
the flag does not enforce at most one external process in flight across
all paths. -/
theorem C5_two_processes_reachable :
    SysReachable { isUpdating := true, pollInFlight := 1, setInFlight := 1 } ∧
    inFlight { isUpdating := true, pollInFlight := 1, setInFlight := 1 } = 2 := by
  constructor
  · have h1 : SysStep initSys
        { isUpdating := true, pollInFlight := 1, setInFlight := 0 } :=
      SysStep.pollStart initSys rfl
    have h2 : SysStep { isUpdating := true, pollInFlight := 1, setInFlight := 0 }
        { isUpdating := true, pollInFlight := 1, setInFlight := 1 } :=
      SysStep.setStart { isUpdating := true, pollInFlight := 1, setInFlight := 0 }
    exact SysReachable.step (SysReachable.step SysReachable.init h1) h2
  · rfl

/-- Invariant of the poll path: no set process, at most one poll
process, and none at all when the guard is down. -/
theorem pollReachable_inv (s0 : Sys) (h : PollReachable s0) :
    s0.setInFlight = 0 ∧ s0.pollInFlight ≤ 1 ∧
      (s0.isUpdating = false → s0.pollInFlight = 0) := by
  induction h with
  | init => exact ⟨rfl, by decide, fun _ => rfl⟩
  | @step s s1 _ hs ih =>
    obtain ⟨h0, h1, h2⟩ := ih
    cases hs with
    | pollStart hfalse =>
      have h3 := h2 hfalse
      refine ⟨h0, ?_, ?_⟩
      · show s.pollInFlight + 1 ≤ 1
        omega
      · intro himp
        simp at himp
    | pollSkip htrue => exact ⟨h0, h1, h2⟩
    | pollFinish hge =>
      refine ⟨h0, ?_, fun _ => ?_⟩
      · show s.pollInFlight - 1 ≤ 1
        omega
      · show s.pollInFlight - 1 = 0
        omega

/-- C5 (amended): along executions that use only the poll path, the
isUpdating guard does enforce at most one external process in flight;
the unguarded set-temperature path is what breaks the claim. -/
theorem C5_poll_guard_single_process (s : Sys) (h : PollReachable s) :
    inFlight s ≤ 1 := by
  obtain ⟨h0, h1, _⟩ := pollReachable_inv s h
  rw [inFlight, h0]
  omega

/-- C5 witness: a poll-reachable state with one process in flight. -/
theorem C5_poll_guard_single_process_witness :
    inFlight { isUpdating := true, pollInFlight := 1, setInFlight := 0 } ≤ 1 :=
  C5_poll_guard_single_process
    { isUpdating := true, pollInFlight := 1, setInFlight := 0 }
    (PollReachable.step PollReachable.init (PollStep.pollStart initSys rfl))

/-- C6: a failed set-temperature command raises the
SERVICE_COMMUNICATION_FAILURE fault and leaves the stored and published
target temperature unchanged; a successful one stores the requested
value and raises no fault. -/
theorem C6_set_temperature_failure (st : UState) (v : Rat) (msg : String)
    (out : List Char) :
    (setTargetTemperature st v (CmdResult.err msg)).2 =
      some HapError.serviceCommunicationFailure ∧
    (setTargetTemperature st v (CmdResult.err msg)).1.snap.targetTemperature =
      st.snap.targetTemperature ∧
    (setTargetTemperature st v (CmdResult.err msg)).1.published.targetTemperature =
      st.published.targetTemperature ∧
    (setTargetTemperature st v (CmdResult.ok out)).1.snap.targetTemperature = v ∧
    (setTargetTemperature st v (CmdResult.ok out)).2 = none :=
  ⟨rfl, rfl, rfl, rfl, rfl⟩

/-- C7 counterexample: a successful poll whose decoded JSON has no
fields leaves every snapshot field at its prior value, so the snapshot
is not overwritten wholesale on every successful poll. -/
theorem C7_sparse_json_retains_fields :
    pollFailed decEmpty stSample (CmdResult.ok [lb, rb]) = false ∧
    (updateATAGData cfgSample decEmpty stSample (CmdResult.ok [lb, rb])).snap =
      stSample.snap ∧
    stSample.snap.currentTemperature = 42 := by
  exact ⟨by decide, by decide, by decide⟩

/-- C7 (amended): on a successful poll the snapshot fields present in
the decoded JSON are replaced by the values of that poll; fields absent from
the JSON keep their prior values, and the flame flag changes only when
flameStatus is present. -/
theorem C7_success_updates_present_fields (cfg : PluginConfig)
    (decode : List Char → Option ATAGJson) (st : UState) (out m : List Char)
    (data : ATAGJson) (h0 : st.isUpdating = false)
    (h1 : extractJson out = some m) (h2 : decode m = some data) :
    (updateATAGData cfg decode st (CmdResult.ok out)).snap =
      applyATAGData data st.snap ∧
    (applyATAGData data st.snap).currentTemperature =
      data.roomTemperature.getD st.snap.currentTemperature ∧
    (applyATAGData data st.snap).targetTemperature =
      data.targetTemperature.getD st.snap.targetTemperature ∧
    (applyATAGData data st.snap).outsideTemperature =
      data.outsideTemperature.getD st.snap.outsideTemperature ∧
    (applyATAGData data st.snap).dhwTemperature =
      data.dhwWaterTemperature.getD st.snap.dhwTemperature ∧
    (applyATAGData data st.snap).waterPressure =
      data.chWaterPressure.getD st.snap.waterPressure ∧
    (applyATAGData data st.snap).flameActive =
      (match data.flameStatus with
        | none => st.snap.flameActive
        | some fs => fs != "Off") := by
  have hparse : parseATAGData decode st.snap out = some (applyATAGData data st.snap) := by
    simp [parseATAGData, h1, h2]
  refine ⟨?_, (applyATAGData_numeric data st.snap).1,
    (applyATAGData_numeric data st.snap).2.1,
    (applyATAGData_numeric data st.snap).2.2.1,
    (applyATAGData_numeric data st.snap).2.2.2.1,
    (applyATAGData_numeric data st.snap).2.2.2.2,
    (applyATAGData_flame data st.snap).1⟩
  simp [updateATAGData, h0, hparse]

/-- C7 witness: the theorem applied at the concrete sparse poll, where
the current temperature is retained. -/
theorem C7_success_updates_present_fields_witness :
    (updateATAGData cfgSample decEmpty stSample (CmdResult.ok [lb, rb])).snap =
      applyATAGData jsonEmpty stSample.snap ∧
    (applyATAGData jsonEmpty stSample.snap).currentTemperature =
      jsonEmpty.roomTemperature.getD stSample.snap.currentTemperature := by
  have h := C7_success_updates_present_fields cfgSample decEmpty stSample
    [lb, rb] [lb, rb] jsonEmpty rfl (by decide) (by decide)
  exact ⟨h.1, h.2.1⟩

/-- C8: construction throws on field validation exactly when the
effective mode (defaulting to local) is local with no truthy host, or
remote with a missing email or password. -/
theorem C8_config_validation :
    (∀ host email pw : Option String,
        effectiveMode { mode := none, host := host, email := email, password := pw } =
          "local") ∧
    ∀ c : RawConfig,
      (validateConfig c).isSome = true ↔
        (effectiveMode c = "local" ∧ truthy c.host = false) ∨
        (effectiveMode c = "remote" ∧
          (truthy c.email = false ∨ truthy c.password = false)) := by
  constructor
  · intro _ _ _; rfl
  · intro c
    rw [validateConfig]
    split_ifs with hA hB
    · simp [hA]
    · simp only [Option.isSome_some, true_iff]
      exact Or.inr hB
    · simp only [Option.isSome_none, Bool.false_eq_true, false_iff]
      intro hor
      rcases hor with h | h
      · exact hA h
      · exact hB h

/-- C9: the flame flag and heating state change only when flameStatus
is present; then the flame is active exactly when flameStatus is not
the string Off, and the state is HEAT when the flame is active or the
updated current temperature is more than half a degree below the
updated target, OFF otherwise. -/
theorem C9_flame_heating_state (data : ATAGJson) (st : Snapshot) :
    (applyATAGData data st).flameActive =
      (match data.flameStatus with
        | none => st.flameActive
        | some fs => fs != "Off") ∧
    (applyATAGData data st).currentHeatingCoolingState =
      (match data.flameStatus with
        | none => st.currentHeatingCoolingState
        | some fs =>
          if (fs != "Off") = true ∨
              data.roomTemperature.getD st.currentTemperature <
                data.targetTemperature.getD st.targetTemperature - (1 / 2 : Rat) then
            HCState.heat
          else HCState.off) :=
  applyATAGData_flame data st

/-- C10: the leak sensor reports a leak exactly when the stored water
pressure is below 1.0 bar, both in the onGet read handler and in the
value republished after a poll (when the service is exposed). -/
theorem C10_leak_threshold (cfg : PluginConfig) (st : Snapshot) :
    leakDetectedOnGet st =
      (if st.waterPressure < 1 then LeakState.leakFound else LeakState.leakAbsent) ∧
    (updateHomeKitCharacteristics cfg st).leakFlag =
      (if cfg.exposeWaterPressure then
        some (if st.waterPressure < 1 then LeakState.leakFound else LeakState.leakAbsent)
      else none) :=
  ⟨rfl, rfl⟩

end Atag
